import Mathlib

/-!
Verification of the i2p-client destination codec, RedDSA signature scheme,
SAM reply parser, I2CP helpers and related utilities.

Buffers are modelled as `List Nat` (one entry per byte, each `< 256` where it
matters); JavaScript strings are modelled as `List Char` (for the ASCII text
protocols) or as `List Nat` of UTF-16 code units (for the I2CP string codec).
Node's `Buffer.subarray(start, end)` clamps its bounds and returns an empty
buffer when `end ≤ start`; this is `(l.take e).drop s` on lists.
-/

namespace I2p

set_option maxRecDepth 100000

/-- Node `buffer.readUInt8(i)` (in-range reads only; out-of-range reads are
guarded by explicit length checks at each use site). -/
def readU8 (l : List Nat) (i : Nat) : Nat := l.getD i 0

/-- Node `buffer.readUInt16BE(i)`. -/
def readU16BE (l : List Nat) (i : Nat) : Nat :=
  256 * l.getD i 0 + l.getD (i + 1) 0

/-- Node `buffer.readBigUInt64BE(i)` as a `Nat`. -/
def readU64BE (l : List Nat) (i : Nat) : Nat :=
  ((((((l.getD i 0 * 256 + l.getD (i+1) 0) * 256 + l.getD (i+2) 0) * 256 +
    l.getD (i+3) 0) * 256 + l.getD (i+4) 0) * 256 + l.getD (i+5) 0) * 256 +
    l.getD (i+6) 0) * 256 + l.getD (i+7) 0

/-- `writeUInt16BE` into a fresh 2-byte buffer. -/
def u16BE (v : Nat) : List Nat := [v / 256 % 256, v % 256]

/-- `writeUInt32BE` into a fresh 4-byte buffer (callers check the range). -/
def u32BE (v : Nat) : List Nat :=
  [v / 16777216 % 256, v / 65536 % 256, v / 256 % 256, v % 256]

/-- Node `buffer.subarray(s, e)` (clamping slice). -/
def subarray (l : List Nat) (s e : Nat) : List Nat := (l.take e).drop s

theorem subarray_empty_of_le {l : List Nat} {s e : Nat} (h : e ≤ s) :
    subarray l s e = [] := by
  apply List.drop_eq_nil_of_le
  exact le_trans (List.length_take_le e l) h

theorem subarray_append_full {l₁ l₂ : List Nat} {s e : Nat}
    (hs : l₁.length = s) (he : e = s + l₂.length) :
    subarray (l₁ ++ l₂) s e = l₂ := by
  subst hs he
  unfold subarray
  rw [List.take_append_eq_append_take, List.take_of_length_le (by simp),
    List.drop_append_eq_append_drop]
  simp

/-! ## Base64 (Node `buffer.toString("base64")` / `Buffer.from(s, "base64")`) -/

def b64chars : List Char :=
  ("ABCDEFGHIJKLMNOPQRSTUVWXYZabcdefghijklmnopqrstuvwxyz0123456789+/").toList

def b64char (n : Nat) : Char := b64chars.getD n '?'

def b64val (c : Char) : Nat := (b64chars.indexOf c)

def b64encode : List Nat → List Char
  | [] => []
  | [a] => [b64char (a / 4), b64char (a % 4 * 16), '=', '=']
  | [a, b] => [b64char (a / 4), b64char (a % 4 * 16 + b / 16), b64char (b % 16 * 4), '=']
  | a :: b :: c :: rest =>
      b64char (a / 4) :: b64char (a % 4 * 16 + b / 16) ::
      b64char (b % 16 * 4 + c / 64) :: b64char (c % 64) :: b64encode rest

def b64decode : List Char → List Nat
  | c1 :: c2 :: c3 :: c4 :: rest =>
      if c3 = '=' then [b64val c1 * 4 + b64val c2 / 16]
      else if c4 = '=' then
        [b64val c1 * 4 + b64val c2 / 16, b64val c2 % 16 * 16 + b64val c3 / 4]
      else
        (b64val c1 * 4 + b64val c2 / 16) :: (b64val c2 % 16 * 16 + b64val c3 / 4) ::
        (b64val c3 % 4 * 64 + b64val c4) :: b64decode rest
  | _ => []

theorem b64val_b64char : ∀ n < 64, b64val (b64char n) = n := by decide

theorem b64char_ne_pad : ∀ n < 64, b64char n ≠ '=' := by decide

theorem b64decode_b64encode : ∀ l : List Nat, (∀ b ∈ l, b < 256) →
    b64decode (b64encode l) = l := by
  intro l
  induction l using b64encode.induct with
  | case1 => intro _; rfl
  | case2 a =>
      intro h
      have ha : a < 256 := h a (by simp)
      simp only [b64encode, b64decode, if_true, ite_true]
      rw [b64val_b64char _ (by omega), b64val_b64char _ (by omega)]
      have h1 : a / 4 * 4 + a % 4 * 16 / 16 = a := by omega
      rw [h1]
  | case3 a b =>
      intro h
      have ha : a < 256 := h a (by simp)
      have hb : b < 256 := h b (by simp)
      simp only [b64encode, b64decode, if_true, ite_true]
      rw [if_neg (b64char_ne_pad _ (by omega))]
      rw [b64val_b64char _ (by omega), b64val_b64char _ (by omega),
        b64val_b64char _ (by omega)]
      have h1 : a / 4 * 4 + (a % 4 * 16 + b / 16) / 16 = a := by omega
      have h2 : (a % 4 * 16 + b / 16) % 16 * 16 + b % 16 * 4 / 4 = b := by omega
      rw [h1, h2]
  | case4 a b c rest ih =>
      intro h
      have ha : a < 256 := h a (by simp)
      have hb : b < 256 := h b (by simp)
      have hc : c < 256 := h c (by simp)
      simp only [b64encode, b64decode]
      rw [if_neg (b64char_ne_pad _ (by omega)), if_neg (b64char_ne_pad _ (by omega))]
      rw [b64val_b64char _ (by omega), b64val_b64char _ (by omega),
        b64val_b64char _ (by omega), b64val_b64char _ (by omega)]
      rw [ih (fun x hx => h x (by simp [hx]))]
      have h1 : a / 4 * 4 + (a % 4 * 16 + b / 16) / 16 = a := by omega
      have h2 : (a % 4 * 16 + b / 16) % 16 * 16 + (b % 16 * 4 + c / 64) / 4 = b := by
        omega
      have h3 : (b % 16 * 4 + c / 64) % 4 * 64 + c % 64 = c := by omega
      rw [h1, h2, h3]

/-- Every character emitted by the encoder is an alphabet character or `=`. -/
theorem b64encode_chars : ∀ (l : List Nat), (∀ b ∈ l, b < 256) →
    ∀ ch ∈ b64encode l, ch = '=' ∨ ∃ n, n < 64 ∧ ch = b64char n := by
  intro l
  induction l using b64encode.induct with
  | case1 => intro _ ch hch; simp [b64encode] at hch
  | case2 a =>
      intro h ch hch
      have ha : a < 256 := h a (by simp)
      simp only [b64encode, List.mem_cons, List.not_mem_nil, or_false] at hch
      rcases hch with rfl | rfl | rfl | rfl
      · exact Or.inr ⟨a / 4, by omega, rfl⟩
      · exact Or.inr ⟨a % 4 * 16, by omega, rfl⟩
      · exact Or.inl rfl
      · exact Or.inl rfl
  | case3 a b =>
      intro h ch hch
      have ha : a < 256 := h a (by simp)
      have hb : b < 256 := h b (by simp)
      simp only [b64encode, List.mem_cons, List.not_mem_nil, or_false] at hch
      rcases hch with rfl | rfl | rfl | rfl
      · exact Or.inr ⟨a / 4, by omega, rfl⟩
      · exact Or.inr ⟨a % 4 * 16 + b / 16, by omega, rfl⟩
      · exact Or.inr ⟨b % 16 * 4, by omega, rfl⟩
      · exact Or.inl rfl
  | case4 a b c rest ih =>
      intro h ch hch
      have ha : a < 256 := h a (by simp)
      have hb : b < 256 := h b (by simp)
      have hc : c < 256 := h c (by simp)
      simp only [b64encode, List.mem_cons] at hch
      rcases hch with rfl | rfl | rfl | rfl | hch
      · exact Or.inr ⟨a / 4, by omega, rfl⟩
      · exact Or.inr ⟨a % 4 * 16 + b / 16, by omega, rfl⟩
      · exact Or.inr ⟨b % 16 * 4 + c / 64, by omega, rfl⟩
      · exact Or.inr ⟨c % 64, by omega, rfl⟩
      · exact ih (fun x hx => h x (by simp [hx])) ch hch

/-! ## The repository's custom base64 alphabet (`+` ↔ `-`, `/` ↔ `~`) -/

def swapOut (c : Char) : Char := if c = '+' then '-' else if c = '/' then '~' else c

def swapIn (c : Char) : Char := if c = '-' then '+' else if c = '~' then '/' else c

/-- `bufferDestinationToString` from `utils.ts`. -/
def bufferDestinationToString (buffer : List Nat) : List Char :=
  (b64encode buffer).map swapOut

/-- `stringDestinationToBuffer` from `utils.ts`. -/
def stringDestinationToBuffer (s : List Char) : List Nat :=
  b64decode (s.map swapIn)

theorem swapIn_swapOut_alphabet :
    ∀ ch : Char, (ch = '=' ∨ ∃ n, n < 64 ∧ ch = b64char n) →
    swapIn (swapOut ch) = ch := by
  rintro ch (rfl | ⟨n, hn, rfl⟩)
  · rfl
  · revert n
    decide

theorem stringDestinationToBuffer_roundtrip (l : List Nat) (h : ∀ b ∈ l, b < 256) :
    stringDestinationToBuffer (bufferDestinationToString l) = l := by
  unfold stringDestinationToBuffer bufferDestinationToString
  rw [List.map_map]
  have : List.map (swapIn ∘ swapOut) (b64encode l) = b64encode l := by
    conv_rhs => rw [← List.map_id (b64encode l)]
    apply List.map_congr_left
    intro ch hch
    exact swapIn_swapOut_alphabet ch (b64encode_chars l h ch hch)
  rw [this, b64decode_b64encode l h]

/-! ## SHA-256 (Node `createHash("sha256")`, an external library primitive;
implemented concretely from FIPS 180-4 so hashes evaluate). -/

def sha256K : List Nat :=
  [1116352408, 1899447441, 3049323471, 3921009573, 961987163, 1508970993,
   2453635748, 2870763221, 3624381080, 310598401, 607225278, 1426881987,
   1925078388, 2162078206, 2614888103, 3248222580, 3835390401, 4022224774,
   264347078, 604807628, 770255983, 1249150122, 1555081692, 1996064986,
   2554220882, 2821834349, 2952996808, 3210313671, 3336571891, 3584528711,
   113926993, 338241895, 666307205, 773529912, 1294757372, 1396182291,
   1695183700, 1986661051, 2177026350, 2456956037, 2730485921, 2820302411,
   3259730800, 3345764771, 3516065817, 3600352804, 4094571909, 275423344,
   430227734, 506948616, 659060556, 883997877, 958139571, 1322822218,
   1537002063, 1747873779, 1955562222, 2024104815, 2227730452, 2361852424,
   2428436474, 2756734187, 3204031479, 3329325298]

def rotr32 (n x : Nat) : Nat := (x / 2 ^ n + x % 2 ^ n * 2 ^ (32 - n)) % 2 ^ 32

def shr32 (n x : Nat) : Nat := x / 2 ^ n

def xor32 (a b : Nat) : Nat := a ^^^ b

def and32 (a b : Nat) : Nat := a &&& b

def not32 (a : Nat) : Nat := 4294967295 - a % 2 ^ 32

structure Sha256State where
  a : Nat
  b : Nat
  c : Nat
  d : Nat
  e : Nat
  f : Nat
  g : Nat
  h : Nat
deriving Repr, DecidableEq

def sha256Init : Sha256State :=
  ⟨1779033703, 3144134277, 1013904242, 2773480762,
   1359893119, 2600822924, 528734635, 1541459225⟩

/-- Pack four bytes (big-endian) into one 32-bit word for each word of a block. -/
def bytesToWords : List Nat → List Nat
  | b0 :: b1 :: b2 :: b3 :: rest =>
      (((b0 * 256 + b1) * 256 + b2) * 256 + b3) :: bytesToWords rest
  | _ => []

/-- Extend the 16 block words to the 64-entry message schedule. -/
def sha256Extend (w : List Nat) : Nat → List Nat
  | 0 => w
  | fuel + 1 =>
      let i := w.length
      let w15 := w.getD (i - 15) 0
      let w2 := w.getD (i - 2) 0
      let s0 := xor32 (xor32 (rotr32 7 w15) (rotr32 18 w15)) (shr32 3 w15)
      let s1 := xor32 (xor32 (rotr32 17 w2) (rotr32 19 w2)) (shr32 10 w2)
      sha256Extend (w ++ [(w.getD (i - 16) 0 + s0 + w.getD (i - 7) 0 + s1) % 2 ^ 32]) fuel

def sha256Round (st : Sha256State) (kt wt : Nat) : Sha256State :=
  let S1 := xor32 (xor32 (rotr32 6 st.e) (rotr32 11 st.e)) (rotr32 25 st.e)
  let ch := xor32 (and32 st.e st.f) (and32 (not32 st.e) st.g)
  let temp1 := (st.h + S1 + ch + kt + wt) % 2 ^ 32
  let S0 := xor32 (xor32 (rotr32 2 st.a) (rotr32 13 st.a)) (rotr32 22 st.a)
  let maj := xor32 (xor32 (and32 st.a st.b) (and32 st.a st.c)) (and32 st.b st.c)
  let temp2 := (S0 + maj) % 2 ^ 32
  ⟨(temp1 + temp2) % 2 ^ 32, st.a, st.b, st.c,
   (st.d + temp1) % 2 ^ 32, st.e, st.f, st.g⟩

def sha256Compress (st : Sha256State) : List Nat → List Nat → Sha256State
  | kt :: ks, wt :: ws => sha256Compress (sha256Round st kt wt) ks ws
  | _, _ => st

def sha256AddState (s t : Sha256State) : Sha256State :=
  ⟨(s.a + t.a) % 2 ^ 32, (s.b + t.b) % 2 ^ 32, (s.c + t.c) % 2 ^ 32,
   (s.d + t.d) % 2 ^ 32, (s.e + t.e) % 2 ^ 32, (s.f + t.f) % 2 ^ 32,
   (s.g + t.g) % 2 ^ 32, (s.h + t.h) % 2 ^ 32⟩

def sha256Blocks : Nat → Sha256State → List Nat → Sha256State
  | 0, st, _ => st
  | _, st, [] => st
  | fuel + 1, st, bytes =>
      let block := bytes.take 64
      let w := sha256Extend (bytesToWords block) 48
      let st' := sha256AddState st (sha256Compress st sha256K w)
      sha256Blocks fuel st' (bytes.drop 64)

def sha256Pad (msg : List Nat) : List Nat :=
  let len := msg.length
  msg ++ 0x80 :: List.replicate ((119 - len % 64) % 64) 0 ++
    [len * 8 / 2 ^ 56 % 256, len * 8 / 2 ^ 48 % 256, len * 8 / 2 ^ 40 % 256,
     len * 8 / 2 ^ 32 % 256, len * 8 / 2 ^ 24 % 256, len * 8 / 2 ^ 16 % 256,
     len * 8 / 2 ^ 8 % 256, len * 8 % 256]

def sha256 (msg : List Nat) : List Nat :=
  let padded := sha256Pad msg
  let st := sha256Blocks padded.length sha256Init padded
  u32BE st.a ++ u32BE st.b ++ u32BE st.c ++ u32BE st.d ++
  u32BE st.e ++ u32BE st.f ++ u32BE st.g ++ u32BE st.h

/-- FIPS 180-4 test vector: SHA-256 of the empty message. -/
theorem sha256_nil :
    sha256 [] =
      [0xe3, 0xb0, 0xc4, 0x42, 0x98, 0xfc, 0x1c, 0x14, 0x9a, 0xfb, 0xf4, 0xc8,
       0x99, 0x6f, 0xb9, 0x24, 0x27, 0xae, 0x41, 0xe4, 0x64, 0x9b, 0x93, 0x4c,
       0xa4, 0x95, 0x99, 0x1b, 0x78, 0x52, 0xb8, 0x55] := by decide

/-- FIPS 180-4 test vector: SHA-256 of "abc". -/
theorem sha256_abc :
    sha256 [0x61, 0x62, 0x63] =
      [0xba, 0x78, 0x16, 0xbf, 0x8f, 0x01, 0xcf, 0xea, 0x41, 0x41, 0x40, 0xde,
       0x5d, 0xae, 0x22, 0x23, 0xb0, 0x03, 0x61, 0xa3, 0x96, 0x17, 0x7a, 0x9c,
       0xb4, 0x10, 0xff, 0x61, 0xf2, 0x00, 0x15, 0xad] := by decide

/-! ## Base32 (rfc4648 `base32.stringify(..., pad: false)` then `.toLowerCase()`). -/

def b32chars : List Char := ("ABCDEFGHIJKLMNOPQRSTUVWXYZ234567").toList

def b32char (n : Nat) : Char := b32chars.getD n '?'

/-- RFC 4648 base32 without padding: 5-bit groups, most significant bit first. -/
def b32encode : List Nat → List Char
  | [] => []
  | [a] => [b32char (a / 8), b32char (a % 8 * 4)]
  | [a, b] => [b32char (a / 8), b32char (a % 8 * 4 + b / 64), b32char (b % 64 / 2),
      b32char (b % 2 * 16)]
  | [a, b, c] => [b32char (a / 8), b32char (a % 8 * 4 + b / 64), b32char (b % 64 / 2),
      b32char (b % 2 * 16 + c / 16), b32char (c % 16 * 2)]
  | [a, b, c, d] => [b32char (a / 8), b32char (a % 8 * 4 + b / 64),
      b32char (b % 64 / 2), b32char (b % 2 * 16 + c / 16), b32char (c % 16 * 2 + d / 128),
      b32char (d % 128 / 4), b32char (d % 4 * 8)]
  | a :: b :: c :: d :: e :: rest =>
      b32char (a / 8) :: b32char (a % 8 * 4 + b / 64) :: b32char (b % 64 / 2) ::
      b32char (b % 2 * 16 + c / 16) :: b32char (c % 16 * 2 + d / 128) ::
      b32char (d % 128 / 4) :: b32char (d % 4 * 8 + e / 32) :: b32char (e % 32) ::
      b32encode rest

/-- JS `String.prototype.toLowerCase` restricted to ASCII (the only characters
these strings contain). -/
def lowerChar (c : Char) : Char :=
  if 'A' ≤ c ∧ c ≤ 'Z' then Char.ofNat (c.toNat + 32) else c

def toLower (s : List Char) : List Char := s.map lowerChar

/-- `destinationBufferToB32String` from `utils.ts`. -/
def destinationBufferToB32String (destinationBuffer : List Nat) : List Char :=
  toLower (b32encode (sha256 destinationBuffer))

/-- `b64stringToB32String` from `utils.ts`. -/
def b64stringToB32String (base64Destination : List Char) : List Char :=
  destinationBufferToB32String (stringDestinationToBuffer base64Destination)

/-! ## Destination codec (`Destination.ts`) -/

/-- `SIGNING_PUBLIC_KEY_LENGTHS` (indexing an absent key yields `undefined` in
JS, which makes the constructor throw; modelled as `none`). -/
def SIGNING_PUBLIC_KEY_LENGTHS : Nat → Option Nat
  | 0 => some 128
  | 1 => some 64
  | 2 => some 96
  | 3 => some 132
  | 4 => some 256
  | 5 => some 384
  | 6 => some 512
  | 7 => some 32
  | 8 => some 32
  | 11 => some 32
  | _ => none

/-- `SIGNATURE_LENGTHS`. -/
def SIGNATURE_LENGTHS : Nat → Option Nat
  | 0 => some 40
  | 1 => some 64
  | 2 => some 96
  | 3 => some 132
  | 4 => some 256
  | 5 => some 384
  | 6 => some 512
  | 7 => some 64
  | 8 => some 64
  | 11 => some 64
  | _ => none

/-- `CRYPTO_PUBLIC_KEY_LENGTHS`. -/
def CRYPTO_PUBLIC_KEY_LENGTHS : Nat → Option Nat
  | 0 => some 256
  | 1 => some 64
  | 2 => some 96
  | 3 => some 132
  | 4 => some 32
  | _ => none

def PARTIAL_CRYPTO_MAX : Nat := 256
def PARTIAL_SIGNIN_MAX : Nat := 128
def PUB_PADD_SIGN_LEN : Nat := PARTIAL_CRYPTO_MAX + PARTIAL_SIGNIN_MAX
def CERT_TYPE_LOC : Nat := 384
def SIGN_TYPE_LOC : Nat := 387
def CRYPT_TYPE_LOC : Nat := 389
def SIGN_REMAI_LOC : Nat := 391

/-- The fields the `Destination` constructor computes.  The source stores the
key material as hex strings; hex encoding is a byte-level bijection, so the
fields are modelled directly as byte lists. -/
structure Destination where
  certType : Nat
  signingPublicKeyType : Nat
  cryptoPublicKeyType : Nat
  publicSigningKey : List Nat
  cryptoPublicKey : List Nat
  byteLength : Nat
  str : List Char
deriving Repr, DecidableEq

instance : Inhabited Destination := ⟨⟨0, 0, 0, [], [], 0, []⟩⟩

/-- The `Destination` constructor.  `none` models a thrown exception: too few
bytes, a `readUInt16BE` past the end of the buffer, an unknown key type
(`undefined` table lookup poisons the arithmetic and the length check below
always fails), or the explicit signing-key length check. -/
def parseDestination (dest : List Nat) : Option Destination :=
  if dest.length < 387 then none
  else
    let certType := readU8 dest CERT_TYPE_LOC
    -- readUInt16BE at 387 and 389 both throw unless the buffer has ≥ 391 bytes
    if certType = 5 ∧ dest.length < 391 then none
    else
      let signingPublicKeyType := if certType = 5 then readU16BE dest SIGN_TYPE_LOC else 0
      let cryptoPublicKeyType := if certType = 5 then readU16BE dest CRYPT_TYPE_LOC else 0
      match CRYPTO_PUBLIC_KEY_LENGTHS cryptoPublicKeyType,
          SIGNING_PUBLIC_KEY_LENGTHS signingPublicKeyType with
      | some cryptoPublicKeyLength, some signingPublicKeyLength =>
        -- `Math.max(0, 384 - cryptoLen - signingLen)`: truncated Nat subtraction
        -- computes the same clamp because cryptoLen ≤ 384
        let padding := CERT_TYPE_LOC - cryptoPublicKeyLength - signingPublicKeyLength
        let publicSigningStartLoc := min cryptoPublicKeyLength PARTIAL_CRYPTO_MAX + padding
        -- `subarray(391, 391 + signingRemainder)`: 391 + signingLen - 128 ≥ 295 ≥ 0,
        -- and the slice is empty whenever the end is ≤ 391 (signingRemainder ≤ 0)
        let publicSigningBuffer :=
          subarray dest publicSigningStartLoc CERT_TYPE_LOC ++
          subarray dest SIGN_REMAI_LOC
            (SIGN_REMAI_LOC + signingPublicKeyLength - PARTIAL_SIGNIN_MAX)
        if publicSigningBuffer.length ≠ signingPublicKeyLength then none
        else
          let cryptoPublicKey :=
            subarray dest 0 (max PARTIAL_CRYPTO_MAX cryptoPublicKeyLength) ++
            subarray dest (PUB_PADD_SIGN_LEN + signingPublicKeyLength - PARTIAL_SIGNIN_MAX)
              (PUB_PADD_SIGN_LEN + signingPublicKeyLength - PARTIAL_SIGNIN_MAX +
                cryptoPublicKeyLength - PARTIAL_CRYPTO_MAX)
          let byteLength := cryptoPublicKeyLength + padding + signingPublicKeyLength + 3 +
            (if certType = 5 then 4 else 0)
          some
            { certType := certType
              signingPublicKeyType := signingPublicKeyType
              cryptoPublicKeyType := cryptoPublicKeyType
              publicSigningKey := publicSigningBuffer
              cryptoPublicKey := cryptoPublicKey
              byteLength := byteLength
              str := bufferDestinationToString (subarray dest 0 byteLength) }
      | _, _ => none

/-- `Destination.buffer` getter. -/
def Destination.buffer (d : Destination) : List Nat := stringDestinationToBuffer d.str

/-- `Destination.hashBuffer` getter. -/
def Destination.hashBuffer (d : Destination) : List Nat := sha256 d.buffer

/-- `Destination.b32` getter. -/
def Destination.b32 (d : Destination) : List Char := b64stringToB32String d.str

/-- `Destination.signatureByteLength` getter. -/
def Destination.signatureByteLength (d : Destination) : Nat :=
  (SIGNATURE_LENGTHS d.signingPublicKeyType).getD 0

/-! ## `generateLocalDestination` (`Destination.ts`)

The random key material is passed in explicitly (`cryptoPublicKey` is the
256-byte `randomBytes(256)` draw, `publicSigningKey` the library-generated
signing public key).  The optional `signingType` argument defaults to
`DSA_SHA1` exactly as in the source.  `none` models the length-check throw and
the crash on a signing type absent from `keyPairMap`. -/
def generateDestinationBuffer (cryptoPublicKey publicSigningKey : List Nat)
    (signingType : Nat := 0) : Option (List Nat) :=
  -- keyPairMap only has entries for the six DESTINATION_SIGNING_KEYS
  if ¬(signingType = 0 ∨ signingType = 1 ∨ signingType = 2 ∨ signingType = 3 ∨
      signingType = 7 ∨ signingType = 11) then none
  else
    match SIGNING_PUBLIC_KEY_LENGTHS signingType with
    | none => none
    | some keyLen =>
      if publicSigningKey.length ≠ keyLen then none
      else
        let cryptoPartialLength := min PARTIAL_CRYPTO_MAX cryptoPublicKey.length
        let signingPartialLength := min PARTIAL_SIGNIN_MAX publicSigningKey.length
        let cryptoRemainder := cryptoPublicKey.drop PARTIAL_CRYPTO_MAX
        let signingRemainder := publicSigningKey.drop PARTIAL_SIGNIN_MAX
        let padding := CERT_TYPE_LOC - cryptoPartialLength - signingPartialLength
        let certType := if signingType = 0 then 0 else 5
        let certLengthBuffer :=
          if signingType = 0 then u16BE 0
          else u16BE (cryptoRemainder.length + signingRemainder.length + 4)
        let certInfoBuffer := if signingType = 0 then [] else u16BE signingType ++ u16BE 0
        some (cryptoPublicKey.take PARTIAL_CRYPTO_MAX ++ List.replicate padding 0 ++
          publicSigningKey.take PARTIAL_SIGNIN_MAX ++ [certType] ++ certLengthBuffer ++
          certInfoBuffer ++ signingRemainder ++ cryptoRemainder)

/-! ## C1: layout lemmas for generated destinations -/

theorem getD_append_right' (l₁ l₂ : List Nat) (i : Nat) (h : l₁.length ≤ i) :
    (l₁ ++ l₂).getD i 0 = l₂.getD (i - l₁.length) 0 := by
  simp [List.getD_eq_getElem?_getD, List.getElem?_append_right h]

theorem subarray_mid (pre mid post : List Nat) (s e : Nat)
    (hs : pre.length = s) (he : e = s + mid.length) :
    subarray (pre ++ mid ++ post) s e = mid := by
  subst hs he
  unfold subarray
  rw [List.append_assoc, List.take_append_eq_append_take,
    List.take_of_length_le (by simp), List.drop_append_eq_append_drop]
  simp [List.take_append_eq_append_take, List.take_of_length_le]

theorem subarray_prefix (l post : List Nat) (e : Nat) (he : e = l.length) :
    subarray (l ++ post) 0 e = l := by
  subst he
  unfold subarray
  simp [List.take_append_eq_append_take, List.take_of_length_le]

/-- Generated KEY-certificate destination for a signing key of at most 128
bytes (ECDSA-P256/P384, Ed25519, RedDSA): explicit byte layout. -/
theorem generate_key_small (t : Nat) (htmem : t = 1 ∨ t = 2 ∨ t = 7 ∨ t = 11)
    (ck sk : List Nat) (hck : ck.length = 256)
    (hsk : SIGNING_PUBLIC_KEY_LENGTHS t = some sk.length) (hsl : sk.length ≤ 128) :
    generateDestinationBuffer ck sk t =
      some (ck ++ List.replicate (128 - sk.length) 0 ++ sk ++ [5, 0, 4, 0, t, 0, 0]) := by
  have ht256 : t < 256 := by rcases htmem with rfl | rfl | rfl | rfl <;> omega
  have ht0 : t ≠ 0 := by rcases htmem with rfl | rfl | rfl | rfl <;> omega
  unfold generateDestinationBuffer
  rw [if_neg (not_not_intro (by tauto)), hsk, if_neg (by omega)]
  simp only [PARTIAL_CRYPTO_MAX, PARTIAL_SIGNIN_MAX, CERT_TYPE_LOC, if_neg ht0]
  rw [List.take_of_length_le (by omega), List.take_of_length_le (by omega),
    List.drop_eq_nil_of_le (by omega), List.drop_eq_nil_of_le (by omega)]
  simp [hck, u16BE, Nat.min_eq_right hsl, Nat.div_eq_of_lt ht256,
    Nat.mod_eq_of_lt ht256]

/-- Parsing the generated small-signing-key KEY destination. -/
theorem parse_key_small (t : Nat)
    (ck sk : List Nat) (hck : ck.length = 256)
    (hts : SIGNING_PUBLIC_KEY_LENGTHS t = some sk.length) (hsl : sk.length ≤ 128) :
    parseDestination (ck ++ List.replicate (128 - sk.length) 0 ++ sk ++ [5, 0, 4, 0, t, 0, 0]) =
      some
        { certType := 5
          signingPublicKeyType := t
          cryptoPublicKeyType := 0
          publicSigningKey := sk
          cryptoPublicKey := ck
          byteLength := 391
          str := bufferDestinationToString
            (ck ++ List.replicate (128 - sk.length) 0 ++ sk ++ [5, 0, 4, 0, t, 0, 0]) } := by
  set gen := ck ++ List.replicate (128 - sk.length) 0 ++ sk ++ [5, 0, 4, 0, t, 0, 0] with hgen
  have hfrontlen : (ck ++ (List.replicate (128 - sk.length) 0 ++ sk)).length = 384 := by
    simp [hck]; omega
  have hgrouped : gen = (ck ++ (List.replicate (128 - sk.length) 0 ++ sk)) ++
      [5, 0, 4, 0, t, 0, 0] := by
    simp [hgen]
  have hlen : gen.length = 391 := by
    rw [hgrouped, List.length_append, hfrontlen]
    rfl
  have h384 : readU8 gen 384 = 5 := by
    rw [readU8, hgrouped, getD_append_right' _ _ _ (by omega), hfrontlen]
    rfl
  have h387 : readU16BE gen 387 = t := by
    rw [readU16BE, hgrouped, getD_append_right' _ _ _ (by omega),
      getD_append_right' _ _ _ (by omega), hfrontlen]
    norm_num [List.getD]
  have h389 : readU16BE gen 389 = 0 := by
    rw [readU16BE, hgrouped, getD_append_right' _ _ _ (by omega),
      getD_append_right' _ _ _ (by omega), hfrontlen]
    norm_num [List.getD]
  have hsig1 : ∀ s, s = 256 + (128 - sk.length) →
      subarray gen s 384 = sk := by
    intro s hs
    have hg2 : gen = (ck ++ List.replicate (128 - sk.length) 0) ++ sk ++
        [5, 0, 4, 0, t, 0, 0] := by simp [hgen]
    rw [hg2]
    apply subarray_mid
    · simp [hck]; omega
    · omega
  have hcrypto1 : subarray gen 0 256 = ck := by
    have hg3 : gen = ck ++ (List.replicate (128 - sk.length) 0 ++ sk ++
        [5, 0, 4, 0, t, 0, 0]) := by simp [hgen]
    rw [hg3]
    exact subarray_prefix _ _ _ hck.symm
  have hstr : ∀ e, e = 391 → subarray gen 0 e = gen := by
    intro e he
    unfold subarray
    rw [List.take_of_length_le (by omega), List.drop_zero]
  unfold parseDestination
  rw [if_neg (by omega)]
  simp only [CERT_TYPE_LOC, SIGN_TYPE_LOC, CRYPT_TYPE_LOC, SIGN_REMAI_LOC,
    PARTIAL_CRYPTO_MAX, PARTIAL_SIGNIN_MAX, PUB_PADD_SIGN_LEN, h384]
  rw [if_neg (by omega)]
  simp only [if_true, ite_true, h387, h389]
  rw [show CRYPTO_PUBLIC_KEY_LENGTHS 0 = some 256 from rfl, hts]
  simp only [Nat.min_self, Nat.max_self]
  rw [hsig1 (256 + (384 - 256 - sk.length)) (by omega)]
  rw [subarray_empty_of_le (by omega), List.append_nil]
  rw [if_neg (by omega)]
  rw [hcrypto1]
  rw [subarray_empty_of_le (by omega), List.append_nil]
  have heq : 256 + (384 - 256 - sk.length) + sk.length + 3 + 4 = 391 := by omega
  rw [heq, hstr 391 rfl]

/-- Generated KEY-certificate destination for ECDSA-P521 (signing key 132
bytes, 4 of which land after the certificate header). -/
theorem generate_key_p521 (ck sk : List Nat) (hck : ck.length = 256)
    (hsk : sk.length = 132) :
    generateDestinationBuffer ck sk 3 =
      some (ck ++ sk.take 128 ++ [5, 0, 8, 0, 3, 0, 0] ++ sk.drop 128) := by
  unfold generateDestinationBuffer
  rw [if_neg (not_not_intro (by tauto)),
    show SIGNING_PUBLIC_KEY_LENGTHS 3 = some 132 from rfl, if_neg (by omega)]
  simp only [PARTIAL_CRYPTO_MAX, PARTIAL_SIGNIN_MAX, CERT_TYPE_LOC]
  rw [List.take_of_length_le (by omega), List.drop_eq_nil_of_le (by omega)]
  simp [hck, hsk, u16BE]

/-- Parsing the generated P521 destination. -/
theorem parse_key_p521 (ck sk : List Nat) (hck : ck.length = 256)
    (hsk : sk.length = 132) :
    parseDestination (ck ++ sk.take 128 ++ [5, 0, 8, 0, 3, 0, 0] ++ sk.drop 128) =
      some
        { certType := 5
          signingPublicKeyType := 3
          cryptoPublicKeyType := 0
          publicSigningKey := sk
          cryptoPublicKey := ck
          byteLength := 395
          str := bufferDestinationToString
            (ck ++ sk.take 128 ++ [5, 0, 8, 0, 3, 0, 0] ++ sk.drop 128) } := by
  set gen := ck ++ sk.take 128 ++ [5, 0, 8, 0, 3, 0, 0] ++ sk.drop 128 with hgen
  have htk : (sk.take 128).length = 128 := by simp [hsk]
  have hdp : (sk.drop 128).length = 4 := by simp [hsk]
  have hfrontlen : ((ck ++ sk.take 128)).length = 384 := by simp [hck, htk]
  have hgrouped : gen = (ck ++ sk.take 128) ++ ([5, 0, 8, 0, 3, 0, 0] ++ sk.drop 128) := by
    simp [hgen]
  have hlen : gen.length = 395 := by
    rw [hgrouped, List.length_append, hfrontlen]
    simp [hdp]
  have h384 : readU8 gen 384 = 5 := by
    rw [readU8, hgrouped, getD_append_right' _ _ _ (by omega), hfrontlen]
    rfl
  have h387 : readU16BE gen 387 = 3 := by
    rw [readU16BE, hgrouped,
      getD_append_right' (ck ++ sk.take 128) ([5, 0, 8, 0, 3, 0, 0] ++ sk.drop 128)
        387 (by omega),
      getD_append_right' (ck ++ sk.take 128) ([5, 0, 8, 0, 3, 0, 0] ++ sk.drop 128)
        (387 + 1) (by omega), hfrontlen]
    rfl
  have h389 : readU16BE gen 389 = 0 := by
    rw [readU16BE, hgrouped,
      getD_append_right' (ck ++ sk.take 128) ([5, 0, 8, 0, 3, 0, 0] ++ sk.drop 128)
        389 (by omega),
      getD_append_right' (ck ++ sk.take 128) ([5, 0, 8, 0, 3, 0, 0] ++ sk.drop 128)
        (389 + 1) (by omega), hfrontlen]
    rfl
  have hsig1 : subarray gen 256 384 = sk.take 128 := by
    rw [hgrouped]
    exact subarray_mid ck (sk.take 128) ([5, 0, 8, 0, 3, 0, 0] ++ sk.drop 128)
      256 384 hck (by omega)
  have hsig2 : subarray gen 391 395 = sk.drop 128 := by
    have hg3 : gen = ck ++ sk.take 128 ++ [5, 0, 8, 0, 3, 0, 0] ++ sk.drop 128 ++ [] := by
      simp [hgen]
    rw [hg3]
    exact subarray_mid (ck ++ sk.take 128 ++ [5, 0, 8, 0, 3, 0, 0]) (sk.drop 128) []
      391 395 (by simp [hck, htk]) (by omega)
  have hcrypto1 : subarray gen 0 256 = ck := by
    have hg4 : gen = ck ++ (sk.take 128 ++ [5, 0, 8, 0, 3, 0, 0] ++ sk.drop 128) := by
      simp [hgen]
    rw [hg4]
    exact subarray_prefix _ _ _ hck.symm
  have hstr : ∀ e, e = 395 → subarray gen 0 e = gen := by
    intro e he
    unfold subarray
    rw [List.take_of_length_le (by omega), List.drop_zero]
  unfold parseDestination
  rw [if_neg (by omega)]
  simp only [CERT_TYPE_LOC, SIGN_TYPE_LOC, CRYPT_TYPE_LOC, SIGN_REMAI_LOC,
    PARTIAL_CRYPTO_MAX, PARTIAL_SIGNIN_MAX, PUB_PADD_SIGN_LEN, h384]
  rw [if_neg (by omega)]
  simp only [if_true, ite_true, h387, h389]
  rw [show CRYPTO_PUBLIC_KEY_LENGTHS 0 = some 256 from rfl,
    show SIGNING_PUBLIC_KEY_LENGTHS 3 = some 132 from rfl]
  simp only [Nat.min_self, Nat.max_self]
  norm_num
  rw [hsig1, hsig2, List.take_append_drop]
  refine ⟨by omega, rfl, ?_, ?_⟩
  · rw [subarray_empty_of_le (le_refl 388), List.append_nil, hcrypto1]
  · rw [hstr 395 (by norm_num)]

/-- Generated NULL-certificate (DSA-SHA1) destination. -/
theorem generate_dsa (ck sk : List Nat) (hck : ck.length = 256)
    (hsk : sk.length = 128) :
    generateDestinationBuffer ck sk = some (ck ++ sk ++ [0, 0, 0]) := by
  simp only [generateDestinationBuffer, SIGNING_PUBLIC_KEY_LENGTHS,
    PARTIAL_CRYPTO_MAX, PARTIAL_SIGNIN_MAX, CERT_TYPE_LOC, u16BE]
  rw [if_neg (by decide), if_neg (by omega)]
  rw [List.take_of_length_le (by omega), List.take_of_length_le (by omega),
    List.drop_eq_nil_of_le (by omega), List.drop_eq_nil_of_le (by omega)]
  simp [hck, hsk]

/-- Parsing the generated DSA-SHA1 destination. -/
theorem parse_dsa (ck sk : List Nat) (hck : ck.length = 256)
    (hsk : sk.length = 128) :
    parseDestination (ck ++ sk ++ [0, 0, 0]) =
      some
        { certType := 0
          signingPublicKeyType := 0
          cryptoPublicKeyType := 0
          publicSigningKey := sk
          cryptoPublicKey := ck
          byteLength := 387
          str := bufferDestinationToString (ck ++ sk ++ [0, 0, 0]) } := by
  set gen := ck ++ sk ++ [0, 0, 0] with hgen
  have hfrontlen : (ck ++ sk).length = 384 := by simp [hck, hsk]
  have hgrouped : gen = (ck ++ sk) ++ [0, 0, 0] := by simp [hgen]
  have hlen : gen.length = 387 := by
    rw [hgrouped, List.length_append, hfrontlen]
    rfl
  have h384 : readU8 gen 384 = 0 := by
    rw [readU8, hgrouped, getD_append_right' _ _ _ (by omega), hfrontlen]
    rfl
  have hsig1 : subarray gen 256 384 = sk := by
    rw [hgen]
    refine subarray_mid _ _ _ _ _ hck ?_
    omega
  have hcrypto1 : subarray gen 0 256 = ck := by
    have hg3 : gen = ck ++ (sk ++ [0, 0, 0]) := by simp [hgen]
    rw [hg3]
    exact subarray_prefix _ _ _ hck.symm
  have hstr : ∀ e, e = 387 → subarray gen 0 e = gen := by
    intro e he
    unfold subarray
    rw [List.take_of_length_le (by omega), List.drop_zero]
  unfold parseDestination
  rw [if_neg (by omega)]
  simp only [CERT_TYPE_LOC, SIGN_TYPE_LOC, CRYPT_TYPE_LOC, SIGN_REMAI_LOC,
    PARTIAL_CRYPTO_MAX, PARTIAL_SIGNIN_MAX, PUB_PADD_SIGN_LEN, h384]
  norm_num [CRYPTO_PUBLIC_KEY_LENGTHS, SIGNING_PUBLIC_KEY_LENGTHS]
  rw [hsig1, subarray_empty_of_le (le_refl 391), List.append_nil]
  refine ⟨by simp [hsk], rfl, ?_, ?_⟩
  · rw [subarray_empty_of_le (le_refl 384), List.append_nil, hcrypto1]
  · rw [hstr 387 (by norm_num)]

theorem bytes_lt_layout_small (t : Nat) (ht : t < 256) (ck sk : List Nat) (p : Nat)
    (h1 : ∀ b ∈ ck, b < 256) (h2 : ∀ b ∈ sk, b < 256) :
    ∀ b ∈ ck ++ List.replicate p 0 ++ sk ++ [5, 0, 4, 0, t, 0, 0], b < 256 := by
  intro b hb
  simp only [List.mem_append, List.mem_replicate, List.mem_cons,
    List.not_mem_nil, or_false] at hb
  rcases hb with ((hb | hb) | hb) | hb
  · exact h1 b hb
  · omega
  · exact h2 b hb
  · rcases hb with rfl | rfl | rfl | rfl | rfl | rfl | rfl <;> omega

theorem bytes_lt_layout_p521 (ck sk : List Nat)
    (h1 : ∀ b ∈ ck, b < 256) (h2 : ∀ b ∈ sk, b < 256) :
    ∀ b ∈ ck ++ sk.take 128 ++ [5, 0, 8, 0, 3, 0, 0] ++ sk.drop 128, b < 256 := by
  intro b hb
  simp only [List.mem_append, List.mem_cons, List.not_mem_nil, or_false] at hb
  rcases hb with ((hb | hb) | hb) | hb
  · exact h1 b hb
  · exact h2 b (List.take_subset _ _ hb)
  · rcases hb with rfl | rfl | rfl | rfl | rfl | rfl | rfl <;> omega
  · exact h2 b (List.drop_subset _ _ hb)

theorem bytes_lt_layout_dsa (ck sk : List Nat)
    (h1 : ∀ b ∈ ck, b < 256) (h2 : ∀ b ∈ sk, b < 256) :
    ∀ b ∈ ck ++ sk ++ [0, 0, 0], b < 256 := by
  intro b hb
  simp only [List.mem_append, List.mem_cons, List.not_mem_nil, or_false] at hb
  rcases hb with (hb | hb) | hb
  · exact h1 b hb
  · exact h2 b hb
  · rcases hb with rfl | rfl | rfl <;> omega

/-- C1: for every supported signing type (DSA-SHA1 = 0, ECDSA-P256 = 1,
ECDSA-P384 = 2, ECDSA-P521 = 3, Ed25519 = 7, RedDSA-Ed25519 = 11), parsing
the serialized bytes of a freshly generated destination with the
`Destination` constructor round-trips: the parsed destination's canonical
byte form (`Destination.buffer`) equals the generated bytes exactly, and the
parsed `byteLength` is 387 for DSA-SHA1, 395 for ECDSA-P521 and 391 for the
other four types. -/
theorem destination_roundtrip (t : Nat)
    (ht : t = 0 ∨ t = 1 ∨ t = 2 ∨ t = 3 ∨ t = 7 ∨ t = 11)
    (ck sk : List Nat) (hck : ck.length = 256) (hckb : ∀ b ∈ ck, b < 256)
    (hsk : SIGNING_PUBLIC_KEY_LENGTHS t = some sk.length)
    (hskb : ∀ b ∈ sk, b < 256) :
    ((generateDestinationBuffer ck sk t).bind parseDestination).map
        (fun d => (Destination.buffer d, d.byteLength)) =
      (generateDestinationBuffer ck sk t).map
        (fun buf => (buf, if t = 0 then 387 else if t = 3 then 395 else 391)) ∧
    (generateDestinationBuffer ck sk t).isSome = true := by
  rcases ht with rfl | rfl | rfl | rfl | rfl | rfl
  · -- DSA-SHA1 (NULL certificate)
    have hsk' : sk.length = 128 := by
      have := hsk
      simp only [SIGNING_PUBLIC_KEY_LENGTHS, Option.some.injEq] at this
      omega
    constructor
    · rw [generate_dsa ck sk hck hsk', Option.some_bind, parse_dsa ck sk hck hsk',
        Option.map_some', Option.map_some']
      simp only [Destination.buffer]
      rw [stringDestinationToBuffer_roundtrip _ (bytes_lt_layout_dsa ck sk hckb hskb)]
      norm_num
    · simp [generate_dsa ck sk hck hsk']
  · -- ECDSA-P256
    have hsk' : sk.length = 64 := by
      have := hsk
      simp only [SIGNING_PUBLIC_KEY_LENGTHS, Option.some.injEq] at this
      omega
    constructor
    · rw [generate_key_small 1 (by tauto) ck sk hck hsk (by omega), Option.some_bind,
        parse_key_small 1 ck sk hck hsk (by omega), Option.map_some', Option.map_some']
      simp only [Destination.buffer]
      rw [stringDestinationToBuffer_roundtrip _
        (bytes_lt_layout_small 1 (by omega) ck sk _ hckb hskb)]
      norm_num
    · simp [generate_key_small 1 (by tauto) ck sk hck hsk (by omega)]
  · -- ECDSA-P384
    have hsk' : sk.length = 96 := by
      have := hsk
      simp only [SIGNING_PUBLIC_KEY_LENGTHS, Option.some.injEq] at this
      omega
    constructor
    · rw [generate_key_small 2 (by tauto) ck sk hck hsk (by omega), Option.some_bind,
        parse_key_small 2 ck sk hck hsk (by omega), Option.map_some', Option.map_some']
      simp only [Destination.buffer]
      rw [stringDestinationToBuffer_roundtrip _
        (bytes_lt_layout_small 2 (by omega) ck sk _ hckb hskb)]
      norm_num
    · simp [generate_key_small 2 (by tauto) ck sk hck hsk (by omega)]
  · -- ECDSA-P521
    have hsk' : sk.length = 132 := by
      have := hsk
      simp only [SIGNING_PUBLIC_KEY_LENGTHS, Option.some.injEq] at this
      omega
    constructor
    · rw [generate_key_p521 ck sk hck hsk', Option.some_bind, parse_key_p521 ck sk hck hsk',
        Option.map_some', Option.map_some']
      simp only [Destination.buffer]
      rw [stringDestinationToBuffer_roundtrip _ (bytes_lt_layout_p521 ck sk hckb hskb)]
      norm_num
    · simp [generate_key_p521 ck sk hck hsk']
  · -- Ed25519
    have hsk' : sk.length = 32 := by
      have := hsk
      simp only [SIGNING_PUBLIC_KEY_LENGTHS, Option.some.injEq] at this
      omega
    constructor
    · rw [generate_key_small 7 (by tauto) ck sk hck hsk (by omega), Option.some_bind,
        parse_key_small 7 ck sk hck hsk (by omega), Option.map_some', Option.map_some']
      simp only [Destination.buffer]
      rw [stringDestinationToBuffer_roundtrip _
        (bytes_lt_layout_small 7 (by omega) ck sk _ hckb hskb)]
      norm_num
    · simp [generate_key_small 7 (by tauto) ck sk hck hsk (by omega)]
  · -- RedDSA-Ed25519
    have hsk' : sk.length = 32 := by
      have := hsk
      simp only [SIGNING_PUBLIC_KEY_LENGTHS, Option.some.injEq] at this
      omega
    constructor
    · rw [generate_key_small 11 (by tauto) ck sk hck hsk (by omega), Option.some_bind,
        parse_key_small 11 ck sk hck hsk (by omega), Option.map_some', Option.map_some']
      simp only [Destination.buffer]
      rw [stringDestinationToBuffer_roundtrip _
        (bytes_lt_layout_small 11 (by omega) ck sk _ hckb hskb)]
      norm_num
    · simp [generate_key_small 11 (by tauto) ck sk hck hsk (by omega)]

/-- C1 witness: the round-trip at a concrete Ed25519 key pair. -/
theorem destination_roundtrip_witness :
    ((generateDestinationBuffer (List.replicate 256 0) (List.replicate 32 0) 7).bind
          parseDestination).map (fun d => (Destination.buffer d, d.byteLength)) =
      (generateDestinationBuffer (List.replicate 256 0) (List.replicate 32 0) 7).map
        (fun buf => (buf, if (7 : Nat) = 0 then 387 else if (7 : Nat) = 3 then 395 else 391)) ∧
    (generateDestinationBuffer (List.replicate 256 0) (List.replicate 32 0) 7).isSome
      = true :=
  destination_roundtrip 7 (by tauto) (List.replicate 256 0) (List.replicate 32 0)
    (by simp) (by simp) (by simp [SIGNING_PUBLIC_KEY_LENGTHS]) (by simp)

/-- Inversion: a successfully parsed destination's `str` field is the custom
base64 encoding of the buffer's first `byteLength` bytes. -/
theorem parse_str_spec (dest : List Nat) (d : Destination)
    (hp : parseDestination dest = some d) :
    d.str = bufferDestinationToString (dest.take d.byteLength) := by
  simp only [parseDestination] at hp
  split at hp
  · exact absurd hp (by simp)
  split at hp
  · exact absurd hp (by simp)
  split at hp
  · split at hp
    · exact absurd hp (by simp)
    · rw [Option.some.injEq] at hp
      subst hp
      simp [subarray]
  · exact absurd hp (by simp)

/-- Inversion: when the buffer is exactly the destination (no trailing bytes),
`Destination.buffer` recovers it. -/
theorem parse_buffer_eq (dest : List Nat) (d : Destination)
    (hp : parseDestination dest = some d) (hlen : dest.length = d.byteLength)
    (hb : ∀ b ∈ dest, b < 256) : d.buffer = dest := by
  rw [Destination.buffer, parse_str_spec dest d hp,
    List.take_of_length_le (by omega), stringDestinationToBuffer_roundtrip _ hb]

/-! ## C4: the short-form identifier -/

/-- C4 counterexample: for the all-zero NULL-certificate destination,
`Destination.b32` is not the base32 hash followed by ".b32.i2p" — the codec
never appends the suffix (only `SAM.generateDestination` does, when it builds
an address string). -/
theorem destination_b32_no_suffix_cex :
    (parseDestination (List.replicate 387 0)).isSome = true ∧
    (parseDestination (List.replicate 387 0)).all
      (fun d => !(d.b32 == destinationBufferToB32String d.buffer ++
        (".b32.i2p").toList)) = true := by
  decide

/-- C4 (amended): `Destination.b32` equals the lowercase unpadded base32
encoding of the SHA-256 of the destination bytes, without any suffix. -/
theorem destination_b32_amended (dest : List Nat) (d : Destination)
    (hp : parseDestination dest = some d) (hb : ∀ b ∈ dest, b < 256) :
    d.b32 = toLower (b32encode (sha256 (dest.take d.byteLength))) := by
  rw [Destination.b32, b64stringToB32String, parse_str_spec dest d hp,
    stringDestinationToBuffer_roundtrip _
      (fun b hbm => hb b (List.take_subset _ _ hbm)),
    destinationBufferToB32String]

/-- C4 witness: the amended statement at the all-zero destination. -/
theorem destination_b32_amended_witness :
    ((parseDestination (List.replicate 387 0)).map (fun d =>
      d.b32 = toLower (b32encode (sha256 ((List.replicate 387 0).take d.byteLength))))
      |>.getD False) := by
  have h := destination_b32_amended (List.replicate 387 0)
  rw [show parseDestination (List.replicate 387 0) =
      some ((parseDestination (List.replicate 387 0)).getD default) from by decide]
  simp only [Option.map_some', Option.getD_some]
  exact h _ (by decide) (by simp)

/-! ## C8: the default signing type -/

/-- The command `SAM.generateDestination` writes after the handshake: it always
requests signature type 7 and offers the caller no choice. -/
def destGenerateCommand : List Char := ("DEST GENERATE SIGNATURE_TYPE=7\n").toList

/-- C8 counterexample: `generateLocalDestination` called without a signing type
produces a type-0 (DSA-SHA1) destination, not type 7 (Ed25519). -/
theorem default_signing_type_cex :
    ((generateDestinationBuffer (List.replicate 256 0) (List.replicate 128 0)).bind
        parseDestination).map (fun d => d.signingPublicKeyType) = some 0 ∧
    some (0 : Nat) ≠ some 7 := by
  decide

/-- C8 (amended): when no signing type is specified, `generateLocalDestination`
defaults to DSA-SHA1 (type 0, NULL certificate); the SAM-bridge
`generateDestination`, by contrast, always sends `SIGNATURE_TYPE=7` and accepts
no signing-type argument at all. -/
theorem default_signing_type_amended (ck sk : List Nat) (hck : ck.length = 256)
    (hsk : sk.length = 128) :
    ((generateDestinationBuffer ck sk).bind parseDestination).map
        (fun d => (d.signingPublicKeyType, d.certType)) = some (0, 0) ∧
    destGenerateCommand = ("DEST GENERATE SIGNATURE_TYPE=7\n").toList := by
  refine ⟨?_, rfl⟩
  rw [generate_dsa ck sk hck hsk, Option.some_bind, parse_dsa ck sk hck hsk,
    Option.map_some']

/-- C8 witness: the amended statement at concrete all-zero key material. -/
theorem default_signing_type_amended_witness :
    ((generateDestinationBuffer (List.replicate 256 0) (List.replicate 128 0)).bind
        parseDestination).map (fun d => (d.signingPublicKeyType, d.certType))
      = some (0, 0) ∧
    destGenerateCommand = ("DEST GENERATE SIGNATURE_TYPE=7\n").toList :=
  default_signing_type_amended (List.replicate 256 0) (List.replicate 128 0)
    (by simp) (by simp)

/-! ## C9: trailing bytes after the destination -/

/-- C9: the `Destination` constructor's documentation says the buffer "must
start with the destination, but can be longer", and
`unpackMessagePayloadMessage` relies on that by handing it
`destination || signature || payload`.  For a KEY certificate whose
signing-key remainder region is not saturated — crypto type 4 (X25519,
length 32) with signing type 3 (ECDSA-P521, length 132) — the constructor
accepts the exact 391-byte buffer (byteLength 391) yet throws as soon as a
single trailing byte is appended: the `subarray(391, 395)` slice then picks
up the extra byte and the signing-key length check fails. -/
theorem destination_trailing_bytes_bug :
    ((parseDestination (List.replicate 384 0 ++ [5, 0, 8, 0, 3, 0, 4])).map
      (fun d => d.byteLength)) = some 391 ∧
    parseDestination ((List.replicate 384 0 ++ [5, 0, 8, 0, 3, 0, 4]) ++ [0]) = none := by
  decide

/-! ## C3: repliable datagram layout (`Datagram1.ts`)

The per-algorithm `sign` / `verify` primitives that `LocalDestination.sign`
and `Destination.verify` dispatch to are external library collaborators
(noble curves, micro-rsa-dsa-dh); they enter as the parameters `primSign` /
`primVerify` with the keys baked in.  The branch on DSA-SHA1 — hashing the
payload with SHA-256 before signing or verifying — is the repository's own
logic and is modelled from `signPayload` / `verifyPayload`. -/

/-- `LocalDestination.signPayload`. -/
def signPayload (signingPublicKeyType : Nat) (primSign : List Nat → List Nat)
    (data : List Nat) : List Nat :=
  if signingPublicKeyType = 0 then primSign (sha256 data) else primSign data

/-- `Destination.verifyPayload`. -/
def verifyPayload (signingPublicKeyType : Nat)
    (primVerify : List Nat → List Nat → Bool) (data sig : List Nat) : Bool :=
  if signingPublicKeyType = 0 then primVerify (sha256 data) sig
  else primVerify data sig

/-- `createDatagram1`: `from.buffer || signPayload(payload) || payload`. -/
def createDatagram1 (d : Destination) (primSign : List Nat → List Nat)
    (payload : List Nat) : List Nat :=
  d.buffer ++ signPayload d.signingPublicKeyType primSign payload ++ payload

/-- C3: for every parsed local destination and payload, `createDatagram1`
produces exactly `destination_bytes || signature || payload`, where the
signature covers `SHA-256(payload)` for DSA-SHA1 and the raw payload
otherwise; slicing the datagram at `byteLength` and
`byteLength + signatureByteLength` (as `unpackMessagePayloadMessage` does)
recovers the signature and payload, and `verifyPayload` accepts that
signature slice against that payload slice whenever the underlying library
primitives satisfy their sign/verify contract. -/
theorem createDatagram1_layout_verifies (dest : List Nat) (d : Destination)
    (hp : parseDestination dest = some d) (hlen : dest.length = d.byteLength)
    (hb : ∀ b ∈ dest, b < 256)
    (primSign : List Nat → List Nat) (primVerify : List Nat → List Nat → Bool)
    (hsiglen : ∀ data, (primSign data).length = d.signatureByteLength)
    (hcontract : ∀ data, primVerify data (primSign data) = true)
    (payload : List Nat) :
    createDatagram1 d primSign payload =
      dest ++ signPayload d.signingPublicKeyType primSign payload ++ payload ∧
    subarray (createDatagram1 d primSign payload) d.byteLength
        (d.byteLength + d.signatureByteLength) =
      signPayload d.signingPublicKeyType primSign payload ∧
    (createDatagram1 d primSign payload).drop
        (d.byteLength + d.signatureByteLength) = payload ∧
    verifyPayload d.signingPublicKeyType primVerify
      ((createDatagram1 d primSign payload).drop
        (d.byteLength + d.signatureByteLength))
      (subarray (createDatagram1 d primSign payload) d.byteLength
        (d.byteLength + d.signatureByteLength)) = true := by
  have hbuf : d.buffer = dest := parse_buffer_eq dest d hp hlen hb
  have hsplen : (signPayload d.signingPublicKeyType primSign payload).length =
      d.signatureByteLength := by
    unfold signPayload
    split <;> exact hsiglen _
  have hsig : subarray (createDatagram1 d primSign payload) d.byteLength
      (d.byteLength + d.signatureByteLength) =
      signPayload d.signingPublicKeyType primSign payload := by
    unfold createDatagram1
    refine subarray_mid _ _ _ _ _ ?_ ?_
    · rw [hbuf, ← hlen]
    · rw [hsplen]
  have hpay : (createDatagram1 d primSign payload).drop
      (d.byteLength + d.signatureByteLength) = payload := by
    unfold createDatagram1
    apply List.drop_left'
    simp only [List.length_append, hsplen]
    rw [hbuf, ← hlen]
  refine ⟨by rw [createDatagram1, hbuf], hsig, hpay, ?_⟩
  rw [hsig, hpay]
  unfold verifyPayload signPayload
  split
  · exact hcontract _
  · exact hcontract _

/-- The parse of the all-zero 387-byte NULL-certificate buffer, used as a
concrete destination by witnesses. -/
def dsaZeroDest : Destination :=
  { certType := 0
    signingPublicKeyType := 0
    cryptoPublicKeyType := 0
    publicSigningKey := List.replicate 128 0
    cryptoPublicKey := List.replicate 256 0
    byteLength := 387
    str := bufferDestinationToString (List.replicate 387 0) }

/-- C3 witness: the layout and verification at the all-zero DSA-SHA1
destination with trivially instantiated library primitives. -/
theorem createDatagram1_layout_verifies_witness :
    createDatagram1 dsaZeroDest (fun _ => List.replicate 40 0) [1, 2, 3] =
      List.replicate 387 0 ++
        signPayload dsaZeroDest.signingPublicKeyType (fun _ => List.replicate 40 0)
          [1, 2, 3] ++ [1, 2, 3] ∧
    subarray (createDatagram1 dsaZeroDest (fun _ => List.replicate 40 0) [1, 2, 3])
        dsaZeroDest.byteLength
        (dsaZeroDest.byteLength + dsaZeroDest.signatureByteLength) =
      signPayload dsaZeroDest.signingPublicKeyType (fun _ => List.replicate 40 0)
        [1, 2, 3] ∧
    (createDatagram1 dsaZeroDest (fun _ => List.replicate 40 0) [1, 2, 3]).drop
        (dsaZeroDest.byteLength + dsaZeroDest.signatureByteLength) = [1, 2, 3] ∧
    verifyPayload dsaZeroDest.signingPublicKeyType (fun _ _ => true)
      ((createDatagram1 dsaZeroDest (fun _ => List.replicate 40 0) [1, 2, 3]).drop
        (dsaZeroDest.byteLength + dsaZeroDest.signatureByteLength))
      (subarray (createDatagram1 dsaZeroDest (fun _ => List.replicate 40 0) [1, 2, 3])
        dsaZeroDest.byteLength
        (dsaZeroDest.byteLength + dsaZeroDest.signatureByteLength)) = true :=
  createDatagram1_layout_verifies (List.replicate 387 0) dsaZeroDest
    (by decide) (by decide) (by simp)
    (fun _ => List.replicate 40 0) (fun _ _ => true)
    (fun _ => rfl) (fun _ => rfl) [1, 2, 3]

/-! ## C7: lookup request ids (`I2CPSession.generateLookupId`) -/

/-- One call of `generateLookupId`: the state is `this.lookupId`, the call
first resets it to 0 when it is already above 65535, then increments it and
returns the new value (so the returned id always equals the new state). -/
def generateLookupId (lookupId : Nat) : Nat :=
  (if lookupId > 65535 then 0 else lookupId) + 1

theorem lookupId_iterate_le : ∀ n, n ≤ 65536 → generateLookupId^[n] 0 = n := by
  intro n
  induction n with
  | zero => intro _; rfl
  | succ n ih =>
      intro h
      rw [Function.iterate_succ_apply', ih (by omega), generateLookupId,
        if_neg (by omega)]

/-- C7 counterexample: the id returned by the 65536-th call (starting from the
initial state 0) is 65536, outside the u16 range [0, 65535] — the reset
happens only when the counter is already above 65535, i.e. after 65536 has
been handed out. -/
theorem lookupId_exceeds_u16_cex :
    generateLookupId^[65536] 0 = 65536 ∧ ¬(65536 ≤ 65535) :=
  ⟨lookupId_iterate_le 65536 (le_refl 65536), by omega⟩

/-- C7 (amended): the id returned by the (n+1)-st call is `n % 65536 + 1`:
successive ids increase by 1, lie in the range [1, 65536] (not [0, 65535]),
and wrap back to 1 on the call after 65536 is returned. -/
theorem lookupId_closed_form : ∀ n : Nat, generateLookupId^[n + 1] 0 = n % 65536 + 1 := by
  intro n
  induction n with
  | zero => rfl
  | succ n ih =>
      rw [Function.iterate_succ_apply', ih, generateLookupId]
      by_cases h : n % 65536 = 65535
      · rw [if_pos (by omega)]
        omega
      · rw [if_neg (by omega)]
        omega

/-! ## C6: lease1 → lease2 conversion (`convertLease1sToLease2s`) -/

/-- One iteration of the conversion loop: the lease2 is the lease1's first 36
bytes followed by the 4-byte big-endian seconds.  `none` models the thrown
errors: the 8-byte end-date length check, and `writeUInt32BE`'s RangeError
when the seconds exceed 0xFFFFFFFF.  The source computes
`Math.floor(Number(ms) / 1000)`; the float quotient's floor agrees with exact
natural division whenever the write succeeds (then ms < 2^42, so `Number` is
exact and the quotient's rounding error is under 1/2000 < 1/1000), and for
larger ms both the float and the exact quotient are ≥ 2^32, so both models
fail — the two are extensionally equal. -/
def convertLease1 (lease : List Nat) : Option (List Nat) :=
  if (lease.drop 36).length ≠ 8 then none
  else
    let endDate := readU64BE lease 36
    if endDate / 1000 ≥ 2 ^ 32 then none
    else some (lease.take 36 ++ u32BE (endDate / 1000))

/-- The conversion loop (`for i in 0..count`), producing the concatenated
lease2 buffer. -/
def convertLease1sGo (leases : List Nat) (i : Nat) : Nat → Option (List Nat)
  | 0 => some []
  | n + 1 =>
      match convertLease1 (subarray leases (i * 44) ((i + 1) * 44)),
          convertLease1sGo leases (i + 1) n with
      | some l2, some rest => some (l2 ++ rest)
      | _, _ => none

/-- `convertLease1sToLease2s`.  The early return fires iff the float quotient
`leases.byteLength / count` equals 40 exactly, i.e. the buffer already holds
`count` 40-byte lease2s. -/
def convertLease1sToLease2s (count : Nat) (leases : List Nat) : Option (List Nat) :=
  if count ≠ 0 ∧ leases.length = 40 * count then some leases
  else convertLease1sGo leases 0 count

/-- C6 counterexample: a single 44-byte lease1 whose 8-byte expiration is
0xFFFFFFFFFFFFFFFF ms makes the conversion throw (`writeUInt32BE` range
error): no 40-byte lease2 buffer is returned. -/
theorem convertLeases_overflow_cex :
    convertLease1sToLease2s 1 (List.replicate 36 0 ++ List.replicate 8 255) = none := by
  decide

theorem convertLease1sGo_spec (ls : List (List Nat))
    (h44 : ∀ l ∈ ls, l.length = 44)
    (hsec : ∀ l ∈ ls, readU64BE l 36 / 1000 < 2 ^ 32) :
    ∀ (front : List Nat) (i : Nat), front.length = 44 * i →
    convertLease1sGo (front ++ ls.flatten) i ls.length =
      some ((ls.map (fun l => l.take 36 ++ u32BE (readU64BE l 36 / 1000))).flatten) := by
  induction ls with
  | nil => intro front i _; simp [convertLease1sGo]
  | cons l rest ih =>
      intro front i hfront
      have hl : l.length = 44 := h44 l (by simp)
      have hassoc : front ++ (l :: rest).flatten = front ++ l ++ rest.flatten := by
        simp
      have hslice : subarray (front ++ l ++ rest.flatten) (i * 44) ((i + 1) * 44) = l := by
        refine subarray_mid _ _ _ _ _ ?_ ?_ <;> omega
      have hconv : convertLease1 l = some (l.take 36 ++ u32BE (readU64BE l 36 / 1000)) := by
        unfold convertLease1
        rw [if_neg (by simp [hl]), if_neg (by push_neg; exact hsec l (by simp))]
      rw [hassoc]
      simp only [List.length_cons, convertLease1sGo, hslice, hconv]
      rw [ih (fun x hx => h44 x (by simp [hx])) (fun x hx => hsec x (by simp [hx]))
        (front ++ l) (i + 1) (by simp [hfront, hl]; omega)]
      simp

/-- C6 (amended): for every n ≥ 1 leases of 44 bytes each whose expirations
fit in 32 bits after division by 1000, `convertLease1sToLease2s` returns the
n 40-byte lease2s, each the lease1's first 36 bytes (gateway hash + tunnel
id) followed by `floor(ms / 1000)` as a 4-byte big-endian value; expirations
whose seconds need more than 32 bits make it throw instead. -/
theorem convertLeases_amended (ls : List (List Nat))
    (h44 : ∀ l ∈ ls, l.length = 44)
    (hsec : ∀ l ∈ ls, readU64BE l 36 / 1000 < 2 ^ 32)
    (hn : 1 ≤ ls.length) :
    convertLease1sToLease2s ls.length ls.flatten =
      some ((ls.map (fun l => l.take 36 ++ u32BE (readU64BE l 36 / 1000))).flatten) := by
  have hflat : ls.flatten.length = 44 * ls.length := by
    rw [List.length_flatten]
    have : ls.map List.length = List.replicate ls.length 44 := by
      exact List.map_eq_replicate_iff.mpr h44
    rw [this]
    simp [Nat.mul_comm]
  unfold convertLease1sToLease2s
  rw [if_neg (by omega)]
  have h := convertLease1sGo_spec ls h44 hsec [] 0 (by simp)
  simpa using h

/-- C6 witness: one lease with expiration 1000 ms converts to seconds 1. -/
theorem convertLeases_amended_witness :
    convertLease1sToLease2s [List.replicate 36 1 ++ [0, 0, 0, 0, 0, 0, 3, 232]].length
        [List.replicate 36 1 ++ [0, 0, 0, 0, 0, 0, 3, 232]].flatten =
      some (([List.replicate 36 1 ++ [0, 0, 0, 0, 0, 0, 3, 232]].map
        (fun l => l.take 36 ++ u32BE (readU64BE l 36 / 1000))).flatten) :=
  convertLeases_amended [List.replicate 36 1 ++ [0, 0, 0, 0, 0, 0, 3, 232]]
    (by decide) (by decide) (by decide)

/-! ## C10: I2CP length-prefixed strings (`sam-utils.ts`) -/

/-- The WHATWG UTF-8 decoder with U+FFFD replacement, as Node's
`buffer.toString("utf-8")` (an external primitive, modelled concretely so the
codec evaluates).  The result is the list of decoded code points.  The fuel
is the number of bytes, which bounds the number of produced code points. -/
def utf8DecodeGo : Nat → List Nat → List Nat
  | 0, _ => []
  | _ + 1, [] => []
  | fuel + 1, b :: rest =>
    if b < 0x80 then b :: utf8DecodeGo fuel rest
    else if 0xC2 ≤ b ∧ b ≤ 0xDF then
      match rest with
      | b2 :: rest2 =>
        if 0x80 ≤ b2 ∧ b2 ≤ 0xBF then
          ((b - 0xC0) * 64 + (b2 - 0x80)) :: utf8DecodeGo fuel rest2
        else 0xFFFD :: utf8DecodeGo fuel rest
      | [] => [0xFFFD]
    else if 0xE0 ≤ b ∧ b ≤ 0xEF then
      match rest with
      | b2 :: b3 :: rest3 =>
        if (if b = 0xE0 then 0xA0 else 0x80) ≤ b2 ∧
            b2 ≤ (if b = 0xED then 0x9F else 0xBF) then
          if 0x80 ≤ b3 ∧ b3 ≤ 0xBF then
            ((b - 0xE0) * 4096 + (b2 - 0x80) * 64 + (b3 - 0x80)) ::
              utf8DecodeGo fuel rest3
          else 0xFFFD :: utf8DecodeGo fuel (b3 :: rest3)
        else 0xFFFD :: utf8DecodeGo fuel (b2 :: b3 :: rest3)
      | [b2] =>
        if (if b = 0xE0 then 0xA0 else 0x80) ≤ b2 ∧
            b2 ≤ (if b = 0xED then 0x9F else 0xBF) then [0xFFFD]
        else 0xFFFD :: utf8DecodeGo fuel [b2]
      | [] => [0xFFFD]
    else if 0xF0 ≤ b ∧ b ≤ 0xF4 then
      match rest with
      | b2 :: b3 :: b4 :: rest4 =>
        if (if b = 0xF0 then 0x90 else 0x80) ≤ b2 ∧
            b2 ≤ (if b = 0xF4 then 0x8F else 0xBF) then
          if 0x80 ≤ b3 ∧ b3 ≤ 0xBF then
            if 0x80 ≤ b4 ∧ b4 ≤ 0xBF then
              ((b - 0xF0) * 262144 + (b2 - 0x80) * 4096 + (b3 - 0x80) * 64 +
                (b4 - 0x80)) :: utf8DecodeGo fuel rest4
            else 0xFFFD :: utf8DecodeGo fuel (b4 :: rest4)
          else 0xFFFD :: utf8DecodeGo fuel (b3 :: b4 :: rest4)
        else 0xFFFD :: utf8DecodeGo fuel (b2 :: b3 :: b4 :: rest4)
      | [b2, b3] =>
        if (if b = 0xF0 then 0x90 else 0x80) ≤ b2 ∧
            b2 ≤ (if b = 0xF4 then 0x8F else 0xBF) then
          if 0x80 ≤ b3 ∧ b3 ≤ 0xBF then [0xFFFD]
          else 0xFFFD :: utf8DecodeGo fuel [b3]
        else 0xFFFD :: utf8DecodeGo fuel [b2, b3]
      | [b2] =>
        if (if b = 0xF0 then 0x90 else 0x80) ≤ b2 ∧
            b2 ≤ (if b = 0xF4 then 0x8F else 0xBF) then [0xFFFD]
        else 0xFFFD :: utf8DecodeGo fuel [b2]
      | [] => [0xFFFD]
    else 0xFFFD :: utf8DecodeGo fuel rest

def utf8Decode (bytes : List Nat) : List Nat := utf8DecodeGo bytes.length bytes

theorem utf8DecodeGo_ascii : ∀ (fuel : Nat) (s : List Nat), s.length ≤ fuel →
    (∀ c ∈ s, c < 128) → utf8DecodeGo fuel s = s := by
  intro fuel
  induction fuel with
  | zero =>
      intro s hle _
      rw [show s = [] from List.eq_nil_of_length_eq_zero (by omega)]
      rfl
  | succ fuel ih =>
      intro s hle hascii
      cases s with
      | nil => rfl
      | cons b rest =>
          have hb : b < 128 := hascii b (by simp)
          simp only [utf8DecodeGo, if_pos hb]
          rw [ih rest (by simp at hle; omega) (fun c hc => hascii c (by simp [hc]))]

theorem utf8Decode_ascii (s : List Nat) (hascii : ∀ c ∈ s, c < 128) :
    utf8Decode s = s :=
  utf8DecodeGo_ascii s.length s (le_refl _) hascii

/-- `I2CPBufferToString`: `null` (modelled `none`) for a zero length byte,
else the UTF-8 decoding of the next `length` bytes. -/
def I2CPBufferToString (buffer : List Nat) : Option (List Nat) :=
  let length := readU8 buffer 0
  if length = 0 then none
  else some (utf8Decode (subarray buffer 1 (length + 1)))

/-- `stringToI2CPBuffer`: the argument is a JS string as UTF-16 code units
(`some`) or `null` (`none`); the result `none` models the thrown length
error, and each character is written as `charCodeAt(i) & 0xff`. -/
def stringToI2CPBuffer : Option (List Nat) → Option (List Nat)
  | none => some [0]
  | some s =>
      if s.length > 255 then none
      else some (s.length :: s.map (· % 256))

/-- C10 counterexample: the single-byte character U+00FF (ÿ) does not
round-trip: it is written as the byte 0xFF, which is invalid UTF-8 and
decodes to U+FFFD. -/
theorem i2cp_string_roundtrip_cex :
    (stringToI2CPBuffer (some [255])).bind I2CPBufferToString = some [65533] ∧
    (stringToI2CPBuffer (some [255])).bind I2CPBufferToString ≠ some [255] := by
  decide

/-- C10 (amended): `stringToI2CPBuffer` throws exactly when the string's
length exceeds 255; every non-empty ASCII string (all char codes < 128) of
length at most 255 round-trips through `I2CPBufferToString`; `null` and the
empty string both encode to the single byte 0x00, which decodes back to
`null` — single-byte characters ≥ 0x80 do not round-trip (they decode to
U+FFFD). -/
theorem i2cp_string_roundtrip_amended :
    (∀ s : List Nat, stringToI2CPBuffer (some s) = none ↔ 255 < s.length) ∧
    (∀ s : List Nat, s ≠ [] → s.length ≤ 255 → (∀ c ∈ s, c < 128) →
      (stringToI2CPBuffer (some s)).bind I2CPBufferToString = some s) ∧
    stringToI2CPBuffer none = some [0] ∧
    stringToI2CPBuffer (some []) = some [0] ∧
    I2CPBufferToString [0] = none := by
  refine ⟨fun s => ?_, fun s hne hlen hascii => ?_, rfl, rfl, rfl⟩
  · simp only [stringToI2CPBuffer]
    split
    · simp
      omega
    · simp
      omega
  · have hmap : s.map (· % 256) = s := by
      conv_rhs => rw [← List.map_id s]
      apply List.map_congr_left
      intro c hc
      have : c < 128 := hascii c hc
      simp [Nat.mod_eq_of_lt (by omega : c < 256)]
    simp only [stringToI2CPBuffer]
    rw [if_neg (by omega), Option.some_bind]
    simp only [I2CPBufferToString]
    rw [show readU8 (s.length :: s.map (· % 256)) 0 = s.length from rfl]
    rw [if_neg (by simp [List.length_eq_zero, hne])]
    have hsub : subarray (s.length :: s.map (· % 256)) 1 (s.length + 1) =
        s.map (· % 256) := by
      unfold subarray
      rw [List.take_of_length_le (by simp)]
      simp
    rw [hsub, hmap, utf8Decode_ascii s hascii]

/-- C10 witness: the amended round-trip at the ASCII string "hi". -/
theorem i2cp_string_roundtrip_amended_witness :
    (stringToI2CPBuffer (some [104, 105])).bind I2CPBufferToString =
      some [104, 105] :=
  i2cp_string_roundtrip_amended.2.1 [104, 105] (by decide) (by decide) (by decide)

/-! ## C5: the SAM reply parser (`parseMessage` / `parseArgString`) -/

/-- JS `String.prototype.indexOf(ch, from)`: first index at or after `start`,
-1 when absent. -/
def jsIndexOf (s : List Char) (c : Char) (start : Nat) : Int :=
  match (s.drop start).findIdx? (· = c) with
  | some i => ((start + i : Nat) : Int)
  | none => -1

def jsWhitespace (c : Char) : Bool :=
  c == ' ' || c == '\n' || c == '\r' || c == '\t'

/-- JS `trim` restricted to the ASCII whitespace these replies contain. -/
def jsTrim (s : List Char) : List Char :=
  ((s.dropWhile jsWhitespace).reverse.dropWhile jsWhitespace).reverse

/-- The character loop of `parseArgString`: state is (args, currentArg,
inQuotes). -/
def parseArgStringGo : List Char → List (List Char) → List Char → Bool →
    List (List Char)
  | [], args, currentArg, _ =>
      if currentArg ≠ [] then args ++ [currentArg] else args
  | ch :: rest, args, currentArg, inQuotes =>
      if ch = '"' then parseArgStringGo rest args (currentArg ++ ['"']) (!inQuotes)
      else if ch = ' ' ∧ inQuotes = false then
        if currentArg ≠ [] then parseArgStringGo rest (args ++ [currentArg]) [] inQuotes
        else parseArgStringGo rest args [] inQuotes
      else parseArgStringGo rest args (currentArg ++ [ch]) inQuotes

/-- `parseArgString` from `sam-utils.ts`. -/
def parseArgString (argString : List Char) : List (List Char) :=
  parseArgStringGo argString [] [] false

def hexVal (c : Char) : Option Nat :=
  if '0' ≤ c ∧ c ≤ '9' then some (c.toNat - 48)
  else if 'a' ≤ c ∧ c ≤ 'f' then some (c.toNat - 87)
  else if 'A' ≤ c ∧ c ≤ 'F' then some (c.toNat - 55)
  else none

/-- The body of a JSON string literal (after the opening quote), as
`JSON.parse` reads it: escapes decoded, a close quote must end the input,
unescaped control characters are an error (`none` models the throw).
Surrogate-pair recombination is not modelled (no SAM reply contains one). -/
def jsonStringGo : Nat → List Char → Option (List Char)
  | 0, _ => none
  | _ + 1, [] => none
  | fuel + 1, c :: rest =>
    if c = '"' then if rest = [] then some [] else none
    else if c = '\\' then
      match rest with
      | [] => none
      | e :: rest2 =>
        if e = 'u' then
          match rest2 with
          | h1 :: h2 :: h3 :: h4 :: rest3 =>
            match hexVal h1, hexVal h2, hexVal h3, hexVal h4 with
            | some v1, some v2, some v3, some v4 =>
                (jsonStringGo fuel rest3).map
                  (Char.ofNat (((v1 * 16 + v2) * 16 + v3) * 16 + v4) :: ·)
            | _, _, _, _ => none
          | _ => none
        else
          match (if e = '"' then some '"' else if e = '\\' then some '\\'
            else if e = '/' then some '/' else if e = 'n' then some '\n'
            else if e = 't' then some '\t' else if e = 'r' then some '\r'
            else if e = 'b' then some (Char.ofNat 8)
            else if e = 'f' then some (Char.ofNat 12) else none) with
          | some d => (jsonStringGo fuel rest2).map (d :: ·)
          | none => none
    else if c.toNat < 0x20 then none
    else (jsonStringGo fuel rest).map (c :: ·)

/-- `JSON.parse(value)` for a value that starts with `"` (the only shape the
parser feeds it): a complete JSON string literal or an error. -/
def jsonParseString (value : List Char) : Option (List Char) :=
  match value with
  | '"' :: rest => jsonStringGo rest.length rest
  | _ => none

/-- JS object insertion `argsObj[key] = value` (overwrite in place). -/
def setArg : List (List Char × List Char) → List Char → List Char →
    List (List Char × List Char)
  | [], key, value => [(key, value)]
  | (k, v) :: rest, key, value =>
      if k = key then (k, value) :: rest else (k, v) :: setArg rest key value

/-- The `for (const arg of pargs)` loop of `parseMessage`: split each arg on
the first `=` only, skip args without `=` or with an empty key, JSON-parse
values that start with a quote (`none` models the re-thrown parse error). -/
def buildArgs : List (List Char) → List (List Char × List Char) →
    Option (List (List Char × List Char))
  | [], acc => some acc
  | arg :: rest, acc =>
      let eqIndex := jsIndexOf arg '=' 0
      if eqIndex = -1 then buildArgs rest acc
      else
        let key := arg.take eqIndex.toNat
        let value := arg.drop (eqIndex.toNat + 1)
        if key = [] then buildArgs rest acc
        else
          match (if value.take 1 = ['"'] then jsonParseString value else some value) with
          | none => none
          | some v => buildArgs rest (setArg acc key v)

/-- `parseMessage` from `sam-utils.ts`: the PING branch, then the reply type
up to the second space and the key/value arguments. -/
def parseMessage (msg : List Char) :
    Option (List Char × List (List Char × List Char)) :=
  if msg.take 4 = ("PING").toList then
    some (("PING").toList, [(("REMAINDER").toList, jsTrim (msg.drop 4))])
  else
    let firstSpaceIndex := jsIndexOf msg ' ' 0
    let secondSpaceIndex := jsIndexOf msg ' ' (firstSpaceIndex + 1).toNat
    let type := msg.take secondSpaceIndex.toNat
    let remainingStr := msg.drop (secondSpaceIndex + 1).toNat
    (buildArgs (parseArgString remainingStr) []).map (fun args => (type, args))

/-- C5: `parseMessage` splits the argument portion on spaces only outside
double-quoted regions and splits each key=value pair on the first `=` only:
the SESSION STATUS reply with a quoted MESSAGE yields type "SESSION STATUS"
and the MESSAGE value `Unknown STYLE` with the quotes stripped; a quoted
value containing a space stays one argument in `parseArgString`; and values
containing `=` (base64 padding in a DEST REPLY's PUB/PRIV) are preserved
intact. -/
theorem parseMessage_quoted_and_equals :
    parseMessage (("SESSION STATUS RESULT=I2P_ERROR MESSAGE=\"Unknown STYLE\"").toList) =
      some (("SESSION STATUS").toList,
        [(("RESULT").toList, ("I2P_ERROR").toList),
         (("MESSAGE").toList, ("Unknown STYLE").toList)]) ∧
    parseArgString (("RESULT=OK MESSAGE=\"a b\"").toList) =
      [("RESULT=OK").toList, ("MESSAGE=\"a b\"").toList] ∧
    parseMessage (("DEST REPLY PUB=AbC+dE== PRIV=Zz8=").toList) =
      some (("DEST REPLY").toList,
        [(("PUB").toList, ("AbC+dE==").toList),
         (("PRIV").toList, ("Zz8=").toList)]) := by
  decide

/-! ## C2: the RedDSA (Red25519) signature scheme -/

namespace RedDSA

/-- The Ed25519 subgroup order, the constant `L` of `RedDSA.ts`. -/
def L : Nat :=
  7237005577332262213973186563042994240857116359379907606001950938285454250989

def cofactor : Nat := 8

/-- `bytesToNumberLE`: little-endian byte-to-bigint conversion. -/
def bytesToNumberLE : List Nat → Nat
  | [] => 0
  | b :: rest => b + 256 * bytesToNumberLE rest

/-- `numberToBytesLE(num, byteLength)`: `byteLength` little-endian bytes. -/
def numberToBytesLE : Nat → Nat → List Nat
  | 0, _ => []
  | k + 1, n => n % 256 :: numberToBytesLE k (n / 256)

/-- `hStar(prefix1, prefix2, msg)`: SHA-512 of the domain separator
`I2P_Red25519H(x)`, the two 32-byte prefixes, the two message-length bytes
(low byte then high byte) and the message, interpreted little-endian and
reduced mod `L`. The hash itself is a parameter (the code delegates to
`crypto.createHash("sha512")`). -/
def hStar (sha512 : List Nat → List Nat) (p1 p2 msg : List Nat) : Nat :=
  bytesToNumberLE (sha512 ((("I2P_Red25519H(x)").toList.map Char.toNat) ++
    p1 ++ p2 ++ [msg.length % 256, msg.length / 256 % 256] ++ msg)) % L

/-- `RedDSA.derivePublicKey`: `[sk mod L] B`, encoded. The curve group, the
base point `B` and the point codec `enc`/`dec` are parameters standing for
`@noble/ed25519`'s `ExtendedPoint` arithmetic, `toRawBytes` and `fromHex`. -/
def derivePublicKey {G : Type} [AddCommGroup G] (B : G) (enc : G → List Nat)
    (secretKey : List Nat) : List Nat :=
  enc ((bytesToNumberLE secretKey % L) • B)

/-- `RedDSA.sign`: `none` models the thrown error for a secret key that is
not 32 bytes; `T` is the 80-byte random nonce drawn inside the function. -/
def sign {G : Type} [AddCommGroup G] (B : G) (enc : G → List Nat)
    (sha512 : List Nat → List Nat) (message secretKey T : List Nat) :
    Option (List Nat) :=
  if secretKey.length ≠ 32 then none
  else
    let sk := bytesToNumberLE secretKey
    let vkBytes := derivePublicKey B enc secretKey
    let r := hStar sha512 T vkBytes message
    let Rbytes := enc (r • B)
    let c := hStar sha512 Rbytes vkBytes message
    let S := (r + c * sk) % L
    some (Rbytes ++ numberToBytesLE 32 S)

/-- `RedDSA.verify`: length checks, point decoding (`dec` models
`ExtendedPoint.fromHex`, `none` for the caught throw), the `S < L` check and
the cofactored group equation.  `Buffer.copyBytesFrom(signature, 32, 64)`
clamps its length argument, so `Sbytes` is bytes 32..63. -/
def verify {G : Type} [AddCommGroup G] [DecidableEq G] (B : G)
    (enc : G → List Nat) (dec : List Nat → Option G)
    (sha512 : List Nat → List Nat) (message signature publicKey : List Nat) :
    Bool :=
  if signature.length ≠ 64 then false
  else if publicKey.length ≠ 32 then false
  else
    let Rbytes := subarray signature 0 32
    let Sbytes := subarray signature 32 64
    match dec Rbytes with
    | none => false
    | some R =>
      let S := bytesToNumberLE Sbytes
      if S ≥ L then false
      else
        match dec publicKey with
        | none => false
        | some vk =>
          let c := hStar sha512 Rbytes (enc vk) message
          let check := -(S • B) + R + c • vk
          decide (cofactor • check = 0)

end RedDSA

theorem L_pos : 0 < RedDSA.L := by decide

theorem numberToBytesLE_length (k n : Nat) :
    (RedDSA.numberToBytesLE k n).length = k := by
  induction k generalizing n with
  | zero => rfl
  | succ k ih => simp [RedDSA.numberToBytesLE, ih]

theorem bytesToNumberLE_numberToBytesLE (k n : Nat) (h : n < 256 ^ k) :
    RedDSA.bytesToNumberLE (RedDSA.numberToBytesLE k n) = n := by
  induction k generalizing n with
  | zero => simp [RedDSA.numberToBytesLE, RedDSA.bytesToNumberLE]; omega
  | succ k ih =>
      rw [RedDSA.numberToBytesLE, RedDSA.bytesToNumberLE, ih (n / 256) (by
        rw [pow_succ] at h
        omega)]
      omega

theorem nsmul_mod_L {G : Type} [AddCommGroup G] (B : G)
    (hLB : RedDSA.L • B = 0) (n : Nat) : n • B = (n % RedDSA.L) • B := by
  have h1 : (RedDSA.L * (n / RedDSA.L)) • B = 0 := by
    rw [mul_comm, ← smul_smul, hLB, smul_zero]
  conv_lhs => rw [← Nat.div_add_mod n RedDSA.L]
  rw [add_smul, h1, zero_add]

theorem red_check_zero {G : Type} [AddCommGroup G] (B : G)
    (hLB : RedDSA.L • B = 0) (r c skN : Nat) :
    -(((r + c * skN) % RedDSA.L) • B) + r • B +
      c • ((skN % RedDSA.L) • B) = 0 := by
  rw [smul_smul, add_assoc, ← add_smul,
    nsmul_mod_L B hLB (r + c * (skN % RedDSA.L))]
  have hmS : (r + c * (skN % RedDSA.L)) % RedDSA.L =
      (r + c * skN) % RedDSA.L :=
    Nat.ModEq.add_left r
      (Nat.ModEq.mul_left c (Nat.mod_mod_of_dvd skN dvd_rfl))
  rw [hmS, neg_add_cancel]

theorem reddsa_verify_of_eq {G : Type} [AddCommGroup G] [DecidableEq G]
    (B : G) (enc : G → List Nat) (dec : List Nat → Option G)
    (sha512 : List Nat → List Nat) (msg Rb nb pk : List Nat) (R vk : G)
    (hRb : Rb.length = 32) (hnb : nb.length = 32) (hpk : pk.length = 32)
    (hdecR : dec Rb = some R) (hdecP : dec pk = some vk)
    (hS : RedDSA.bytesToNumberLE nb < RedDSA.L)
    (hzero : RedDSA.cofactor •
      (-(RedDSA.bytesToNumberLE nb • B) + R +
        RedDSA.hStar sha512 Rb (enc vk) msg • vk) = 0) :
    RedDSA.verify B enc dec sha512 msg (Rb ++ nb) pk = true := by
  have h64 : (Rb ++ nb).length = 64 := by
    rw [List.length_append, hRb, hnb]
  have hsub1 : subarray (Rb ++ nb) 0 32 = Rb :=
    subarray_prefix Rb nb 32 hRb.symm
  have hsub2 : subarray (Rb ++ nb) 32 64 = nb :=
    subarray_append_full hRb (by omega)
  simp only [RedDSA.verify]
  rw [if_neg (not_not_intro h64), if_neg (not_not_intro hpk), hsub1, hsub2,
    hdecR, hdecP]
  simp [not_le.mpr hS, hzero]

/-- C2: for every 32-byte RedDSA secret key, every message and every choice
of the 80 random nonce bytes `T`, a signature produced by `RedDSA.sign`
is accepted by `RedDSA.verify` against `RedDSA.derivePublicKey` of the same
key, over any curve group in which the base point `B` has order dividing
`L` and whose point codec decodes what it encodes into 32 bytes. -/
theorem reddsa_sign_verify {G : Type} [AddCommGroup G] [DecidableEq G]
    (B : G) (enc : G → List Nat) (dec : List Nat → Option G)
    (sha512 : List Nat → List Nat)
    (hdec : ∀ P : G, dec (enc P) = some P)
    (hlen : ∀ P : G, (enc P).length = 32)
    (hLB : RedDSA.L • B = 0)
    (msg sk T sig : List Nat) (hsk : sk.length = 32)
    (hsig : RedDSA.sign B enc sha512 msg sk T = some sig) :
    RedDSA.verify B enc dec sha512 msg sig
      (RedDSA.derivePublicKey B enc sk) = true := by
  simp only [RedDSA.sign, RedDSA.derivePublicKey] at hsig
  rw [if_neg (not_not_intro hsk)] at hsig
  obtain rfl := Option.some.inj hsig
  simp only [RedDSA.derivePublicKey]
  have hSlt : (RedDSA.hStar sha512 T
        (enc ((RedDSA.bytesToNumberLE sk % RedDSA.L) • B)) msg +
      RedDSA.hStar sha512
        (enc (RedDSA.hStar sha512 T
          (enc ((RedDSA.bytesToNumberLE sk % RedDSA.L) • B)) msg • B))
        (enc ((RedDSA.bytesToNumberLE sk % RedDSA.L) • B)) msg *
      RedDSA.bytesToNumberLE sk) % RedDSA.L < RedDSA.L :=
    Nat.mod_lt _ L_pos
  have hround := bytesToNumberLE_numberToBytesLE 32 _
    (lt_of_lt_of_le hSlt (by decide))
  refine reddsa_verify_of_eq B enc dec sha512 msg _ _ _ _ _
    (hlen _) (numberToBytesLE_length 32 _) (hlen _) (hdec _) (hdec _)
    (by rw [hround]; exact hSlt) ?_
  rw [hround, red_check_zero B hLB, smul_zero]

theorem reddsa_sign_verify_witness :
    RedDSA.verify PUnit.unit (fun _ => List.replicate 32 0)
      (fun _ => some PUnit.unit) (fun _ => List.replicate 64 0)
      [] (List.replicate 64 0)
      (RedDSA.derivePublicKey PUnit.unit (fun _ => List.replicate 32 0)
        (List.replicate 32 0)) = true :=
  reddsa_sign_verify PUnit.unit (fun _ => List.replicate 32 0)
    (fun _ => some PUnit.unit) (fun _ => List.replicate 64 0)
    (fun _ => rfl) (fun _ => by simp) (Subsingleton.elim _ _)
    [] (List.replicate 32 0) (List.replicate 80 0) (List.replicate 64 0)
    (by simp) (by decide)

end I2p
